import Mathlib

/-!
Verification development for the arco-era5 orchestration core.

The source under study consists of two Python files:
  src/arco_era5/utils.py        (date_range, subprocess_run, helpers)
  src/model-levels-to-zarr.py   (make_path and the orchestration main)

Strings are embedded as lists of characters; Python string primitives
(membership, split, strip, zero-padded decimal formatting) are embedded
as executable Lean functions below, and the two functions under
verification (subprocess_run's log-supervision loop and make_path) are
direct translations of the Python source on top of them.
-/

namespace ArcoEra5

/-- Characters that Python's default str.strip removes: space, tab,
newline, carriage return, vertical tab, form feed. -/
def isSpaceChar (c : Char) : Bool :=
  c = ' ' || c = '\t' || c = '\n' || c = '\x0d' || c = '\x0b' || c = '\x0c'

/-- Embedding of Python's str.strip() (no argument): drop the maximal
whitespace prefix and suffix. -/
def pyStrip (s : List Char) : List Char :=
  ((s.dropWhile isSpaceChar).reverse.dropWhile isSpaceChar).reverse

/-- Embedding of the Python substring test "needle in hay": true exactly
when needle occurs contiguously inside hay. -/
def pyIn (needle : List Char) : List Char → Bool
  | [] => needle.isEmpty
  | c :: rest => needle.isPrefixOf (c :: rest) || pyIn needle rest

/-- Embedding of Python's str.split(sep) for a one-character separator:
splits on every occurrence, keeping empty parts, and returns one part
even for the empty string. -/
def pySplit (sep : Char) : List Char → List (List Char)
  | [] => [[]]
  | c :: rest =>
    match pySplit sep rest with
    | [] => [[]]
    | p :: ps => if c = sep then [] :: p :: ps else (c :: p) :: ps

theorem pyIn_iff_occurs (needle : List Char) :
    ∀ hay : List Char, pyIn needle hay = true ↔ needle <:+: hay := by
  intro hay
  induction hay with
  | nil =>
    simp only [pyIn, List.isEmpty_iff, List.infix_nil]
  | cons c rest ih =>
    simp only [pyIn, Bool.or_eq_true, List.isPrefixOf_iff_prefix, ih,
      List.infix_cons_iff]

theorem pySplit_ne_nil (sep : Char) (s : List Char) : pySplit sep s ≠ [] := by
  cases s with
  | nil => simp [pySplit]
  | cons c rest =>
    simp only [pySplit]
    cases h : pySplit sep rest with
    | nil => simp
    | cons p ps =>
      by_cases hc : c = sep <;> simp [hc]

/-- Each part produced by pySplit is free of the separator. -/
theorem pySplit_no_sep (sep : Char) :
    ∀ s : List Char, ∀ p ∈ pySplit sep s, sep ∉ p := by
  intro s
  induction s with
  | nil =>
    intro p hp
    simp only [pySplit, List.mem_singleton] at hp
    simp [hp]
  | cons c rest ih =>
    intro p hp
    rcases hq : pySplit sep rest with _ | ⟨q, qs⟩
    · exact absurd hq (pySplit_ne_nil sep rest)
    · by_cases hc : c = sep
      · simp only [pySplit, hq, if_pos hc, List.mem_cons] at hp
        rcases hp with rfl | hp
        · simp
        · exact ih p (by rw [hq, List.mem_cons]; exact hp)
      · simp only [pySplit, hq, if_neg hc, List.mem_cons] at hp
        rcases hp with rfl | hp
        · intro hmem
          rcases List.mem_cons.mp hmem with h1 | h1
          · exact hc h1.symm
          · exact ih q (by rw [hq]; exact List.mem_cons_self q qs) h1
        · exact ih p (by rw [hq]; exact List.mem_cons_of_mem q hp)

/-- Joining the parts of a pySplit with the separator recovers the input. -/
def joinSep (sep : Char) : List (List Char) → List Char
  | [] => []
  | [p] => p
  | p :: ps => p ++ sep :: joinSep sep ps

theorem joinSep_cons_cons (sep : Char) (p q : List Char) (ps : List (List Char)) :
    joinSep sep (p :: q :: ps) = p ++ sep :: joinSep sep (q :: ps) := rfl

theorem pySplit_join (sep : Char) :
    ∀ s : List Char, joinSep sep (pySplit sep s) = s := by
  intro s
  induction s with
  | nil => simp [pySplit, joinSep]
  | cons c rest ih =>
    rcases hq : pySplit sep rest with _ | ⟨q, qs⟩
    · exact absurd hq (pySplit_ne_nil sep rest)
    · rw [hq] at ih
      by_cases hc : c = sep
      · subst hc
        have hsplit : pySplit c (c :: rest) = [] :: q :: qs := by
          simp [pySplit, hq]
        rw [hsplit, joinSep_cons_cons, List.nil_append, ih]
      · simp only [pySplit, hq, if_neg hc]
        cases qs with
        | nil => simpa [joinSep] using congrArg (c :: ·) ih
        | cons r rs =>
          rw [joinSep_cons_cons] at ih ⊢
          simpa using congrArg (c :: ·) ih

/-- The number of parts is one more than the number of separators. -/
theorem pySplit_length (sep : Char) :
    ∀ s : List Char, (pySplit sep s).length = s.count sep + 1 := by
  intro s
  induction s with
  | nil => simp [pySplit]
  | cons c rest ih =>
    rcases hq : pySplit sep rest with _ | ⟨q, qs⟩
    · exact absurd hq (pySplit_ne_nil sep rest)
    · rw [hq] at ih
      by_cases hc : c = sep
      · subst hc
        simp only [pySplit, hq, if_pos rfl, List.length_cons]
        simp only [List.length_cons] at ih
        simp [List.count_cons, ih]
      · simp only [pySplit, hq, if_neg hc, List.length_cons]
        simp only [List.length_cons] at ih
        simp [List.count_cons, Ne.symm hc, ih, hc]

/-- Fuel-driven helper for decimal digit strings; any fuel above the
input computes the digits (structural recursion keeps it kernel-reducible). -/
def decCharsGo : ℕ → ℕ → List Char
  | 0, _ => []
  | fuel + 1, n =>
    if n < 10 then [Nat.digitChar n]
    else decCharsGo fuel (n / 10) ++ [Nat.digitChar (n % 10)]

/-- Big-endian decimal digit characters of a natural number, as printed
by Python's str / %d formatting. -/
def decChars (n : ℕ) : List Char := decCharsGo (n + 1) n

theorem decCharsGo_fuel :
    ∀ f1 : ℕ, ∀ f2 n : ℕ, n < f1 → n < f2 → decCharsGo f1 n = decCharsGo f2 n := by
  intro f1
  induction f1 with
  | zero => omega
  | succ f1 ih =>
    intro f2 n h1 h2
    cases f2 with
    | zero => omega
    | succ f2 =>
      simp only [decCharsGo]
      by_cases h : n < 10
      · simp [h]
      · simp only [if_neg h]
        have hdiv : n / 10 < n := Nat.div_lt_self (by omega) (by omega)
        rw [ih f2 (n / 10) (by omega) (by omega)]

/-- Unfolding equation for decChars, matching the usual recursive
presentation of decimal printing. -/
theorem decChars_eq (n : ℕ) :
    decChars n = if n < 10 then [Nat.digitChar n]
      else decChars (n / 10) ++ [Nat.digitChar (n % 10)] := by
  by_cases h : n < 10
  · simp [decChars, decCharsGo, h]
  · have hdiv : n / 10 < n := Nat.div_lt_self (by omega) (by omega)
    simp only [decChars]
    have step : decCharsGo (n + 1) n
        = if n < 10 then [Nat.digitChar n]
          else decCharsGo n (n / 10) ++ [Nat.digitChar (n % 10)] := rfl
    rw [step, if_neg h, if_neg h,
      decCharsGo_fuel n (n / 10 + 1) (n / 10) (by omega) (by omega)]

/-- Embedding of Python's zero-padded fixed-width formatting, as in the
f-string conversions {n:04d} and {n:02d}: pad the decimal digits with
leading zeros up to the requested width (wider numbers print in full). -/
def pad (w n : ℕ) : List Char :=
  List.replicate (w - (decChars n).length) '0' ++ decChars n

theorem decChars_length_pos (n : ℕ) : 1 ≤ (decChars n).length := by
  rw [decChars_eq]
  by_cases h : n < 10 <;> simp [h]

theorem decChars_length_le (w : ℕ) :
    ∀ n : ℕ, n < 10 ^ w → (decChars n).length ≤ max w 1 := by
  induction w with
  | zero =>
    intro n hn
    interval_cases n
    decide
  | succ w ih =>
    intro n hn
    rw [decChars_eq]
    by_cases h : n < 10
    · simp only [if_pos h, List.length_singleton]
      omega
    · simp only [if_neg h, List.length_append, List.length_singleton]
      have hdiv : n / 10 < 10 ^ w := by
        rw [Nat.div_lt_iff_lt_mul (by omega)]
        calc n < 10 ^ (w + 1) := hn
        _ = 10 ^ w * 10 := by ring
      have := ih (n / 10) hdiv
      have hw : 1 ≤ w := by
        by_contra hw
        have : w = 0 := by omega
        subst this
        simp at hdiv
        omega
      omega

theorem digitChar_toNat (d : ℕ) (hd : d < 10) : (Nat.digitChar d).toNat = 48 + d := by
  interval_cases d <;> rfl

theorem digitChar_isDigit (d : ℕ) (hd : d < 10) : (Nat.digitChar d).isDigit = true := by
  interval_cases d <;> rfl

theorem decChars_isDigit : ∀ n : ℕ, ∀ c ∈ decChars n, c.isDigit = true := by
  intro n
  induction n using Nat.strong_induction_on with
  | _ n ih =>
    intro c hc
    rw [decChars_eq] at hc
    by_cases h : n < 10
    · simp only [if_pos h, List.mem_singleton] at hc
      subst hc
      exact digitChar_isDigit n h
    · simp only [if_neg h, List.mem_append, List.mem_singleton] at hc
      rcases hc with hc | hc
      · exact ih (n / 10) (Nat.div_lt_self (by omega) (by omega)) c hc
      · subst hc
        exact digitChar_isDigit (n % 10) (Nat.mod_lt n (by omega))

theorem pad_isDigit (w n : ℕ) : ∀ c ∈ pad w n, c.isDigit = true := by
  intro c hc
  rcases List.mem_append.mp hc with hc | hc
  · rw [List.eq_of_mem_replicate hc]
    rfl
  · exact decChars_isDigit n c hc

theorem pad_length (w n : ℕ) (hw : 1 ≤ w) (hn : n < 10 ^ w) :
    (pad w n).length = w := by
  have hle : (decChars n).length ≤ w := by
    have := decChars_length_le w n hn
    omega
  simp [pad, hle]

/-- Numeric value of a big-endian digit string (leading zeros ignored). -/
def valNum (s : List Char) : ℕ :=
  s.foldl (fun a c => 10 * a + (c.toNat - 48)) 0

theorem valNum_decChars_aux :
    ∀ n a : ℕ, List.foldl (fun a c => 10 * a + (c.toNat - 48)) a (decChars n)
      = a * 10 ^ (decChars n).length + n := by
  intro n
  induction n using Nat.strong_induction_on with
  | _ n ih =>
    intro a
    rw [decChars_eq]
    by_cases h : n < 10
    · simp only [if_pos h, List.foldl_cons, List.foldl_nil, List.length_singleton,
        digitChar_toNat n h]
      ring_nf
      omega
    · simp only [if_neg h, List.foldl_append, List.foldl_cons, List.foldl_nil,
        List.length_append, List.length_singleton]
      rw [ih (n / 10) (Nat.div_lt_self (by omega) (by omega)) a]
      rw [digitChar_toNat (n % 10) (Nat.mod_lt n (by omega))]
      have hmod : 48 + n % 10 - 48 = n % 10 := by omega
      rw [hmod, pow_succ]
      have := Nat.div_add_mod n 10
      ring_nf
      omega

theorem valNum_replicate_zero (k : ℕ) :
    List.foldl (fun a c => 10 * a + (c.toNat - 48)) 0 (List.replicate k '0') = 0 := by
  induction k with
  | zero => rfl
  | succ k ih =>
    rw [List.replicate_succ, List.foldl_cons]
    simpa using ih

theorem valNum_pad (w n : ℕ) : valNum (pad w n) = n := by
  rw [valNum, pad, List.foldl_append, valNum_replicate_zero]
  have := valNum_decChars_aux n 0
  simpa using this

theorem pad_inj (w : ℕ) {m n : ℕ} (h : pad w m = pad w n) : m = n := by
  have := congrArg valNum h
  rwa [valNum_pad, valNum_pad] at this

/-- Embedding of a Python datetime.datetime value: the calendar and
clock fields that such an object carries. -/
structure Timestamp where
  year : ℕ
  month : ℕ
  day : ℕ
  hour : ℕ
  minute : ℕ
  second : ℕ
deriving DecidableEq

/-- Field ranges guaranteed by the datetime.datetime constructor
(MINYEAR = 1, MAXYEAR = 9999; months 1-12; days 1-31; clock fields in
their usual ranges). -/
def ValidTime (t : Timestamp) : Prop :=
  1 ≤ t.year ∧ t.year ≤ 9999 ∧ 1 ≤ t.month ∧ t.month ≤ 12 ∧
  1 ≤ t.day ∧ t.day ≤ 31 ∧ t.hour < 24 ∧ t.minute < 60 ∧ t.second < 60

instance (t : Timestamp) : Decidable (ValidTime t) := by
  unfold ValidTime
  exact inferInstance

/-- Failure of make_path: unpacking chunk.split to three names raises a
ValueError when the split does not have exactly three parts (the spec
calls this MalformedTokenError). -/
inductive PathError where
  | malformedToken
deriving DecidableEq

instance {e a : Type} [DecidableEq e] [DecidableEq a] : DecidableEq (Except e a) := fun x y =>
  match x, y with
  | .ok u, .ok v =>
    if h : u = v then isTrue (by rw [h]) else isFalse (fun hc => h (by injection hc))
  | .error u, .error v =>
    if h : u = v then isTrue (by rw [h]) else isFalse (fun hc => h (by injection hc))
  | .ok _, .error _ => isFalse (fun hc => by injection hc)
  | .error _, .ok _ => isFalse (fun hc => by injection hc)

/-- Constant bucket prefix of every produced path (the first piece of
the f-strings in make_path). -/
def gsDailyPrefix : List Char :=
  "gs://external-data-ai-for-weather/ERA5GRIB/HRES/Daily/".data

/-- Embedding of make_path from src/model-levels-to-zarr.py.  A chunk
containing the separator is split on every underscore and unpacked into
bundle, level and variable (error if not exactly three parts); otherwise
the simpler bundle-only path is produced.  The f-string pieces are
translated literally, with pad embedding the 04d / 02d conversions. -/
def make_path (time : Timestamp) (chunk : List Char) : Except PathError (List Char) :=
  if '_' ∈ chunk then
    match pySplit '_' chunk with
    | [chunk_, level, var] =>
      .ok (gsDailyPrefix ++ pad 4 time.year ++ '/' ::
        (pad 4 time.year ++ pad 2 time.month ++ pad 2 time.day ++
          "_hres_".data ++ chunk_ ++ ".grb2_".data ++ level ++ '_' ::
            (var ++ ".grib".data)))
    | _ => .error .malformedToken
  else
    .ok (gsDailyPrefix ++ pad 4 time.year ++ '/' ::
      (pad 4 time.year ++ pad 2 time.month ++ pad 2 time.day ++
        "_hres_".data ++ chunk ++ ".grb2".data))

example : make_path ⟨2022, 3, 7, 0, 0, 0⟩ "dve".data
    = .ok "gs://external-data-ai-for-weather/ERA5GRIB/HRES/Daily/2022/20220307_hres_dve.grb2".data := by
  decide

example : make_path ⟨2022, 3, 7, 0, 0, 0⟩ "o3q_137_t".data
    = .ok "gs://external-data-ai-for-weather/ERA5GRIB/HRES/Daily/2022/20220307_hres_o3q.grb2_137_t.grib".data := by
  decide

example : make_path ⟨2022, 3, 7, 0, 0, 0⟩ "o3q_137".data = .error .malformedToken := by
  decide

/-- Exception classes relevant to the except clause of subprocess_run. -/
inductive ExnKind where
  | calledProcessError (stderr : List Char)
  | otherError
deriving DecidableEq

/-- Items the supervision loop can observe while iterating over the
child process's merged output stream: a fully read line (already decoded
from bytes), or an exception raised by the read.  Python distinguishes
exception classes; the only class the source catches is
subprocess.CalledProcessError (which carries a stderr payload), so other
exception classes are modelled by one uncaught alternative. -/
inductive StreamItem where
  | line (bytes : List Char)
  | exn (kind : ExnKind)
deriving DecidableEq

/-- How subprocess_run ends: falling off the loop and returning to the
caller; sys.exit(message), which terminates the orchestrator process
with exit status 1 and the message printed; or an uncaught exception
propagating out (also fatal, but not via sys.exit). -/
inductive Outcome where
  | exited
  | aborted (message : List Char)
  | crashed
deriving DecidableEq

/-- Process exit status produced by each outcome: a normal return leaves
status 0; sys.exit(str) exits with status 1. -/
def Outcome.exitCode : Outcome → ℕ
  | .exited => 0
  | .aborted _ => 1
  | .crashed => 1

/-- Observable result of one run of subprocess_run over a stream: the
lines forwarded to logger.info in order, the messages forwarded to
logger.error, and how the function ended. -/
structure SupRes where
  infoLog : List (List Char)
  errLog : List (List Char)
  outcome : Outcome
deriving DecidableEq

/-- Marker test of the supervision loop, translated from the condition
  "Failed" in log_message or 'JOB_STATE_CANCELLING' in log_message. -/
def isMarker (msg : List Char) : Bool :=
  pyIn "Failed".data msg || pyIn "JOB_STATE_CANCELLING".data msg

/-- Message passed to sys.exit for a triggering stripped line
(f-string: Stopping subprocess as followed by the line). -/
def stopMessage (msg : List Char) : List Char :=
  "Stopping subprocess as ".data ++ msg

/-- Message passed to logger.error when a CalledProcessError is caught
(f-string: Failed to execute dataflow job due to followed by stderr). -/
def execFailMessage (stderr : List Char) : List Char :=
  "Failed to execute dataflow job due to ".data ++ stderr

/-- Embedding of subprocess_run from src/arco_era5/utils.py.  The child
process launch is abstracted by the stream of items its combined
stdout/stderr produces; the loop strips each line, exits the orchestrator
on a marker line, and otherwise forwards the line to logger.info.  A
CalledProcessError is caught, logged at error level, and the function
returns; any other exception propagates uncaught. -/
def subprocess_run : List StreamItem → SupRes
  | [] => ⟨[], [], .exited⟩
  | .line l :: rest =>
    let log_message := pyStrip l
    if isMarker log_message then ⟨[], [], .aborted (stopMessage log_message)⟩
    else
      let r := subprocess_run rest
      ⟨log_message :: r.infoLog, r.errLog, r.outcome⟩
  | .exn (.calledProcessError stderr) :: _ => ⟨[], [execFailMessage stderr], .exited⟩
  | .exn .otherError :: _ => ⟨[], [], .crashed⟩

example : subprocess_run [.line "hello".data, .line " ok ".data]
    = ⟨["hello".data, "ok".data], [], .exited⟩ := by decide

example : subprocess_run [.line "a".data, .line "step Failed to materialize chunk x".data, .line "b".data]
    = ⟨["a".data], [], .aborted "Stopping subprocess as step Failed to materialize chunk x".data⟩ := by decide

example : subprocess_run [.line "a".data, .line "state JOB_STATE_CANCELLING".data]
    = ⟨["a".data], [], .aborted "Stopping subprocess as state JOB_STATE_CANCELLING".data⟩ := by decide

example : subprocess_run [.line "upload failed".data] = ⟨["upload failed".data], [], .exited⟩ := by decide

example : subprocess_run [.line "a".data, .exn .otherError, .line "b".data]
    = ⟨["a".data], [], .crashed⟩ := by decide

/-- Decimal reading of a nonempty all-digit character list (None
otherwise), used when parsing date components. -/
def parseNatChars (s : List Char) : Option ℕ :=
  if s ≠ [] ∧ ∀ c ∈ s, c.isDigit = true then some (valNum s) else none

instance (s : List Char) : Decidable (s ≠ [] ∧ ∀ c ∈ s, c.isDigit = true) :=
  inferInstance

/-- Gregorian leap-year rule. -/
def isLeapYear (y : ℕ) : Bool :=
  (y % 4 == 0 && y % 100 != 0) || y % 400 == 0

/-- Length of a month in the Gregorian calendar. -/
def daysInMonth (y m : ℕ) : ℕ :=
  if m = 2 then (if isLeapYear y then 29 else 28)
  else if m = 4 ∨ m = 6 ∨ m = 9 ∨ m = 11 then 30 else 31

/-- Days in the months of year y strictly before month m. -/
def daysBeforeMonth (y m : ℕ) : ℕ :=
  ((List.range (m - 1)).map (fun i => daysInMonth y (i + 1))).sum

/-- Rata-die ordinal of a proleptic-Gregorian calendar day: the number
of days elapsed from day 0 = 0000-12-31.  Timestamps produced by the
calendar generator are represented by this ordinal, so that the pandas
daily stepping becomes ordinal successor. -/
def rataDie (y m d : ℕ) : ℕ :=
  365 * (y - 1) + (y - 1) / 4 - (y - 1) / 100 + (y - 1) / 400 +
    daysBeforeMonth y m + d

/-- Parsing of a date string of the documented YYYY-MM-DD shape into
(year, month, day), with the calendar validity checks pandas applies;
None models the parse error pandas raises for a non-date string. -/
def parseDate (s : List Char) : Option (ℕ × ℕ × ℕ) :=
  match pySplit '-' s with
  | [ys, ms, ds] =>
    match parseNatChars ys, parseNatChars ms, parseNatChars ds with
    | some y, some m, some d =>
      if 1 ≤ y ∧ y ≤ 9999 ∧ 1 ≤ m ∧ m ≤ 12 ∧ 1 ≤ d ∧ d ≤ daysInMonth y m then
        some (y, m, d)
      else none
    | _, _, _ => none
  | _ => none

/-- Model of pandas.date_range(start, stop, freq = D) over day ordinals:
one midnight timestamp per day from start to stop inclusive, and the
empty index when stop precedes start. -/
def pd_date_range_D (start stop : ℕ) : List ℕ :=
  (List.range (stop + 1 - start)).map (start + ·)

/-- Error raised out of date_range: pandas raises (a ValueError subclass)
when a bound does not parse as a date. -/
inductive DateRangeError where
  | unparseable
deriving DecidableEq

/-- Embedding of date_range from src/arco_era5/utils.py (and of the
identical inline list comprehension in src/model-levels-to-zarr.py):
the pandas daily date index between the two parsed bounds, materialized
as a list, with each timestamp represented by its day ordinal. -/
def date_range (start_date end_date : List Char) : Except DateRangeError (List ℕ) :=
  match parseDate start_date, parseDate end_date with
  | some (y1, m1, d1), some (y2, m2, d2) =>
    .ok (pd_date_range_D (rataDie y1 m1 d1) (rataDie y2 m2 d2))
  | _, _ => .error .unparseable

example : date_range "2020-02-28".data "2020-03-02".data
    = .ok [rataDie 2020 2 28, rataDie 2020 2 29, rataDie 2020 3 1, rataDie 2020 3 2] := by decide

example : date_range "2020-01-05".data "2020-01-01".data = .ok [] := by decide

example : date_range "not-a-date".data "2020-01-01".data = .error .unparseable := by decide

theorem pd_range_spec (s e : ℕ) (h : s ≤ e) :
    (pd_date_range_D s e).length = e - s + 1 ∧
    (pd_date_range_D s e).Pairwise (· < ·) ∧
    (pd_date_range_D s e).head? = some s ∧
    (pd_date_range_D s e).getLast? = some e := by
  have hk : e + 1 - s = (e - s) + 1 := by omega
  rw [pd_date_range_D, hk]
  refine ⟨by simp, ?_, ?_, ?_⟩
  · exact (List.pairwise_lt_range _).map _ (fun a b hab => by omega)
  · rw [List.range_succ_eq_map]
    simp
  · rw [List.range_succ, List.map_append]
    simp only [List.map_cons, List.map_nil, List.getLast?_concat]
    congr 1
    omega

/-- C2: for valid parsed dates with start at or before end, date_range
with the daily default frequency returns a list of length
(end - start).days + 1, strictly increasing, starting at start and
ending at end (timestamps represented by day ordinals). -/
theorem dateRange_daily_calendar (sd ed : List Char) (y1 m1 d1 y2 m2 d2 : ℕ)
    (hs : parseDate sd = some (y1, m1, d1)) (he : parseDate ed = some (y2, m2, d2))
    (hle : rataDie y1 m1 d1 ≤ rataDie y2 m2 d2) :
    ∃ L, date_range sd ed = .ok L ∧
      L.length = (rataDie y2 m2 d2 - rataDie y1 m1 d1) + 1 ∧
      L.Pairwise (· < ·) ∧
      L.head? = some (rataDie y1 m1 d1) ∧
      L.getLast? = some (rataDie y2 m2 d2) := by
  have hdr : date_range sd ed
      = .ok (pd_date_range_D (rataDie y1 m1 d1) (rataDie y2 m2 d2)) := by
    rw [date_range, hs, he]
  obtain ⟨h1, h2, h3, h4⟩ := pd_range_spec _ _ hle
  exact ⟨_, hdr, h1, h2, h3, h4⟩

/-- Witness for C2 at the concrete range 2020-02-28 .. 2020-03-02. -/
theorem dateRange_daily_calendar_witness :
    ∃ L, date_range "2020-02-28".data "2020-03-02".data = .ok L ∧
      L.length = (rataDie 2020 3 2 - rataDie 2020 2 28) + 1 ∧
      L.Pairwise (· < ·) ∧
      L.head? = some (rataDie 2020 2 28) ∧
      L.getLast? = some (rataDie 2020 3 2) :=
  dateRange_daily_calendar "2020-02-28".data "2020-03-02".data 2020 2 28 2020 3 2
    (by decide) (by decide) (by decide)

theorem infix_dropWhile_of_head (n h : List Char) (c : Char) (hh : n.head? = some c)
    (hc : isSpaceChar c = false) (hinf : n <:+: h) :
    n <:+: h.dropWhile isSpaceChar := by
  rcases hinf with ⟨a, b, rfl⟩
  rw [List.append_assoc, List.dropWhile_append]
  by_cases hemp : (a.dropWhile isSpaceChar).isEmpty
  · rw [if_pos hemp]
    cases n with
    | nil => simp at hh
    | cons c0 tl =>
      injection hh with hh0
      subst hh0
      rw [List.cons_append, List.dropWhile_cons, hc]
      simp only [Bool.false_eq_true, if_false]
      exact ⟨[], b, by simp⟩
  · rw [if_neg hemp]
    exact ⟨a.dropWhile isSpaceChar, b, by simp⟩

/-- A contiguous occurrence whose first and last characters are not
whitespace survives Python's strip of the surrounding line. -/
theorem infix_pyStrip (n h : List Char) (c0 c1 : Char) (hh : n.head? = some c0)
    (hc0 : isSpaceChar c0 = false) (hl : n.getLast? = some c1)
    (hc1 : isSpaceChar c1 = false) (hinf : n <:+: h) :
    n <:+: pyStrip h := by
  have h1 : n <:+: h.dropWhile isSpaceChar :=
    infix_dropWhile_of_head n h c0 hh hc0 hinf
  have h1r : n.reverse <:+: (h.dropWhile isSpaceChar).reverse :=
    List.reverse_infix.mpr h1
  have hhr : n.reverse.head? = some c1 := by
    rw [List.head?_reverse, hl]
  have h2 : n.reverse <:+: (h.dropWhile isSpaceChar).reverse.dropWhile isSpaceChar :=
    infix_dropWhile_of_head n.reverse _ c1 hhr hc1 h1r
  have h3 := List.reverse_infix.mpr h2
  rw [List.reverse_reverse] at h3
  exact h3

/-- The stripped line is itself a contiguous piece of the line. -/
theorem pyStrip_infix_self (h : List Char) : pyStrip h <:+: h := by
  have h1 : h.dropWhile isSpaceChar <:+ h := List.dropWhile_suffix isSpaceChar
  have h2 : (h.dropWhile isSpaceChar).reverse.dropWhile isSpaceChar
      <:+ (h.dropWhile isSpaceChar).reverse := List.dropWhile_suffix isSpaceChar
  have h3 : pyStrip h <+: h.dropWhile isSpaceChar := by
    rw [← List.reverse_prefix, List.reverse_reverse] at *
    exact h2
  exact h3.isInfix.trans h1.isInfix

/-- A stream with no marker line is fully forwarded to the info log in
order and the supervisor returns normally. -/
theorem subprocess_run_clean (lines : List (List Char))
    (h : ∀ l ∈ lines, isMarker (pyStrip l) = false) :
    subprocess_run (lines.map .line) = ⟨lines.map pyStrip, [], .exited⟩ := by
  induction lines with
  | nil => rfl
  | cons l rest ih =>
    have hl := h l (List.mem_cons_self l rest)
    have := ih (fun x hx => h x (List.mem_cons_of_mem l hx))
    simp [subprocess_run, hl, this]

/-- A stream whose first marker line is m forwards exactly the preceding
lines, then exits the orchestrator with m inside the message. -/
theorem subprocess_run_first_marker (pre : List (List Char)) (m : List Char)
    (post : List StreamItem) (hpre : ∀ l ∈ pre, isMarker (pyStrip l) = false)
    (hm : isMarker (pyStrip m) = true) :
    subprocess_run (pre.map .line ++ .line m :: post)
      = ⟨pre.map pyStrip, [], .aborted (stopMessage (pyStrip m))⟩ := by
  induction pre with
  | nil => simp [subprocess_run, hm]
  | cons l rest ih =>
    have hl := hpre l (List.mem_cons_self l rest)
    have := ih (fun x hx => hpre x (List.mem_cons_of_mem l hx))
    simp [subprocess_run, hl, this]

/-- If any line of the stream is a marker line, the run aborts with the
stripped first marker line embedded in the exit message. -/
theorem subprocess_run_marker_aborts (lines : List (List Char))
    (h : ∃ m ∈ lines, isMarker (pyStrip m) = true) :
    ∃ msg, (subprocess_run (lines.map .line)).outcome = .aborted msg ∧
      ∃ l ∈ lines, isMarker (pyStrip l) = true ∧ pyStrip l <:+: msg := by
  induction lines with
  | nil => simp at h
  | cons l rest ih =>
    by_cases hl : isMarker (pyStrip l) = true
    · refine ⟨stopMessage (pyStrip l), by simp [subprocess_run, hl], l,
        List.mem_cons_self l rest, hl, ?_⟩
      exact (List.suffix_append "Stopping subprocess as ".data (pyStrip l)).isInfix
    · obtain ⟨m, hmem, hmark⟩ := h
      have hmrest : m ∈ rest := by
        rcases List.mem_cons.mp hmem with rfl | hr
        · exact absurd hmark hl
        · exact hr
      obtain ⟨msg, hout, l', hl', hm', hinf⟩ := ih ⟨m, hmrest, hmark⟩
      refine ⟨msg, ?_, l', List.mem_cons_of_mem l hl', hm', hinf⟩
      simp only [List.map_cons, subprocess_run, hl, Bool.false_eq_true, if_false]
      exact hout

/-- C1 counterexample: the line Upload Failed contains neither the
phrase Failed to materialize chunk nor JOB_STATE_CANCELLING, yet the
supervisor does not return normally - it exits the orchestrator, because
the code matches the generic substring Failed. -/
theorem subprocess_run_generic_marker_cex :
    ¬ ("Failed to materialize chunk".data <:+: "Upload Failed".data) ∧
    ¬ ("JOB_STATE_CANCELLING".data <:+: "Upload Failed".data) ∧
    (subprocess_run [.line "Upload Failed".data]).outcome
      = .aborted "Stopping subprocess as Upload Failed".data := by
  decide

/-- C1 (amended): a line containing Failed to materialize chunk aborts
the orchestrator with exit status 1 and a triggering marker line inside
the message; a line containing JOB_STATE_CANCELLING does likewise; and
if no line contains the actual markers Failed or JOB_STATE_CANCELLING,
the supervisor returns normally after the stream closes. -/
theorem subprocess_run_marker_exit_protocol (lines : List (List Char)) :
    ((∃ m ∈ lines, "Failed to materialize chunk".data <:+: m) →
      ∃ msg, (subprocess_run (lines.map .line)).outcome = .aborted msg ∧
        Outcome.exitCode (.aborted msg) ≠ 0 ∧
        ∃ l ∈ lines, isMarker (pyStrip l) = true ∧ pyStrip l <:+: msg) ∧
    ((∃ m ∈ lines, "JOB_STATE_CANCELLING".data <:+: m) →
      ∃ msg, (subprocess_run (lines.map .line)).outcome = .aborted msg ∧
        Outcome.exitCode (.aborted msg) ≠ 0 ∧
        ∃ l ∈ lines, isMarker (pyStrip l) = true ∧ pyStrip l <:+: msg) ∧
    ((∀ l ∈ lines, ¬ ("Failed".data <:+: l) ∧ ¬ ("JOB_STATE_CANCELLING".data <:+: l)) →
      (subprocess_run (lines.map .line)).outcome = .exited) := by
  refine ⟨?_, ?_, ?_⟩
  · rintro ⟨m, hm, hinf⟩
    have hstrip : "Failed to materialize chunk".data <:+: pyStrip m :=
      infix_pyStrip _ m 'F' 'k' (by decide) (by decide) (by decide) (by decide) hinf
    have hmark : isMarker (pyStrip m) = true := by
      rw [isMarker, Bool.or_eq_true]
      left
      exact (pyIn_iff_occurs _ _).mpr
        (((by decide : "Failed".data <+: "Failed to materialize chunk".data)).isInfix.trans hstrip)
    obtain ⟨msg, hout, hrest⟩ := subprocess_run_marker_aborts lines ⟨m, hm, hmark⟩
    exact ⟨msg, hout, by simp [Outcome.exitCode], hrest⟩
  · rintro ⟨m, hm, hinf⟩
    have hstrip : "JOB_STATE_CANCELLING".data <:+: pyStrip m :=
      infix_pyStrip _ m 'J' 'G' (by decide) (by decide) (by decide) (by decide) hinf
    have hmark : isMarker (pyStrip m) = true := by
      rw [isMarker, Bool.or_eq_true]
      right
      exact (pyIn_iff_occurs _ _).mpr hstrip
    obtain ⟨msg, hout, hrest⟩ := subprocess_run_marker_aborts lines ⟨m, hm, hmark⟩
    exact ⟨msg, hout, by simp [Outcome.exitCode], hrest⟩
  · intro h
    have hall : ∀ l ∈ lines, isMarker (pyStrip l) = false := by
      intro l hl
      rcases h l hl with ⟨h1, h2⟩
      rw [isMarker]
      rw [Bool.or_eq_false_iff]
      constructor
      · by_contra hb
        rw [Bool.not_eq_false, pyIn_iff_occurs] at hb
        exact h1 (hb.trans (pyStrip_infix_self l))
      · by_contra hb
        rw [Bool.not_eq_false, pyIn_iff_occurs] at hb
        exact h2 (hb.trans (pyStrip_infix_self l))
    rw [subprocess_run_clean lines hall]

/-- Witness for C1 (amended) at two concrete streams. -/
theorem subprocess_run_marker_exit_protocol_witness :
    (∃ msg, (subprocess_run (["x Failed to materialize chunk y".data].map .line)).outcome
        = .aborted msg ∧
      Outcome.exitCode (.aborted msg) ≠ 0 ∧
      ∃ l ∈ (["x Failed to materialize chunk y".data] : List (List Char)),
        isMarker (pyStrip l) = true ∧ pyStrip l <:+: msg) ∧
    (subprocess_run (["all good".data].map .line)).outcome = .exited :=
  ⟨(subprocess_run_marker_exit_protocol _).1
      ⟨"x Failed to materialize chunk y".data, List.mem_cons_self _ _, by decide⟩,
   (subprocess_run_marker_exit_protocol _).2.2 (by decide)⟩

/-- C3 counterexample: for the concrete bounds 2020-01-05 (start) and
2020-01-01 (end), the end precedes the start yet date_range returns a
value (the empty list) instead of failing. -/
theorem dateRange_reversed_bounds_cex :
    parseDate "2020-01-05".data = some (2020, 1, 5) ∧
    parseDate "2020-01-01".data = some (2020, 1, 1) ∧
    rataDie 2020 1 1 < rataDie 2020 1 5 ∧
    date_range "2020-01-05".data "2020-01-01".data = .ok [] := by
  decide

/-- C3 (amended): with end preceding start, date_range returns the empty
list (pandas produces an empty index, no error); with a start string
that does not parse as a date it fails with the parse error. -/
theorem dateRange_reversed_empty_unparseable_fails :
    (∀ sd ed y1 m1 d1 y2 m2 d2, parseDate sd = some (y1, m1, d1) →
      parseDate ed = some (y2, m2, d2) →
      rataDie y2 m2 d2 < rataDie y1 m1 d1 →
      date_range sd ed = .ok []) ∧
    (∀ sd ed, parseDate sd = none → date_range sd ed = .error .unparseable) := by
  constructor
  · intro sd ed y1 m1 d1 y2 m2 d2 hs he hlt
    rw [date_range, hs, he]
    have hz : rataDie y2 m2 d2 + 1 - rataDie y1 m1 d1 = 0 := by omega
    simp [pd_date_range_D, hz]
  · intro sd ed h
    rw [date_range, h]

/-- Witness for C3 (amended) at concrete bounds. -/
theorem dateRange_reversed_empty_unparseable_fails_witness :
    date_range "2020-01-05".data "2020-01-01".data = .ok [] ∧
    date_range "nonsense".data "2020-01-01".data = .error .unparseable :=
  ⟨dateRange_reversed_empty_unparseable_fails.1 "2020-01-05".data "2020-01-01".data
      2020 1 5 2020 1 1 (by decide) (by decide) (by decide),
   dateRange_reversed_empty_unparseable_fails.2 "nonsense".data "2020-01-01".data (by decide)⟩

/-- Splitting off a prefix of non-marker lines: they are forwarded to
the info log in order, in front of whatever the rest of the stream
produces. -/
theorem subprocess_run_prefix_lines (pre : List (List Char)) (items : List StreamItem)
    (h : ∀ l ∈ pre, isMarker (pyStrip l) = false) :
    subprocess_run (pre.map .line ++ items)
      = ⟨pre.map pyStrip ++ (subprocess_run items).infoLog,
         (subprocess_run items).errLog, (subprocess_run items).outcome⟩ := by
  induction pre with
  | nil => simp
  | cons l rest ih =>
    have hl := h l (List.mem_cons_self l rest)
    have := ih (fun x hx => h x (List.mem_cons_of_mem l hx))
    simp [subprocess_run, hl, this]

/-- C7: the supervisor forwards lines to the info sink in exactly the
order the child emitted them, classifies each line on its fully read
stripped content, and forwards every line preceding a marker before the
abort, with the marker line itself carried in the abort message. -/
theorem subprocess_run_ordered_forwarding :
    (∀ lines : List (List Char), (∀ l ∈ lines, isMarker (pyStrip l) = false) →
      subprocess_run (lines.map .line) = ⟨lines.map pyStrip, [], .exited⟩) ∧
    (∀ pre : List (List Char), ∀ m : List Char, ∀ post : List StreamItem,
      (∀ l ∈ pre, isMarker (pyStrip l) = false) → isMarker (pyStrip m) = true →
      subprocess_run (pre.map .line ++ .line m :: post)
        = ⟨pre.map pyStrip, [], .aborted (stopMessage (pyStrip m))⟩) :=
  ⟨subprocess_run_clean, subprocess_run_first_marker⟩

/-- Witness for C7 at a concrete clean stream and a concrete marker
stream. -/
theorem subprocess_run_ordered_forwarding_witness :
    subprocess_run (["first".data, "second".data].map .line)
      = ⟨["first".data, "second".data].map pyStrip, [], .exited⟩ ∧
    subprocess_run (["first".data].map .line ++ .line "x Failed y".data :: [.line "late".data])
      = ⟨["first".data].map pyStrip, [], .aborted (stopMessage (pyStrip "x Failed y".data))⟩ :=
  ⟨subprocess_run_ordered_forwarding.1 ["first".data, "second".data] (by decide),
   subprocess_run_ordered_forwarding.2 ["first".data] "x Failed y".data [.line "late".data]
     (by decide) (by decide)⟩

/-- C8: the two abort markers are matched case-sensitively as literal
substrings anywhere in a stripped log line; a line containing Failed or
JOB_STATE_CANCELLING classifies the run as aborted, while lowercase
variants do not. -/
theorem subprocess_run_case_sensitive_markers :
    (∀ msg : List Char, "Failed".data <:+: msg → isMarker msg = true) ∧
    (∀ msg : List Char, "JOB_STATE_CANCELLING".data <:+: msg → isMarker msg = true) ∧
    (∀ msg : List Char, isMarker msg = true →
      "Failed".data <:+: msg ∨ "JOB_STATE_CANCELLING".data <:+: msg) ∧
    (∀ m : List Char, ∀ rest : List StreamItem, isMarker (pyStrip m) = true →
      (subprocess_run (.line m :: rest)).outcome = .aborted (stopMessage (pyStrip m))) ∧
    isMarker "upload failed".data = false ∧
    isMarker "job_state_cancelling".data = false ∧
    (subprocess_run [.line "upload failed".data]).outcome = .exited ∧
    (subprocess_run [.line "job_state_cancelling".data]).outcome = .exited := by
  refine ⟨?_, ?_, ?_, ?_, by decide, by decide, by decide, by decide⟩
  · intro msg h
    rw [isMarker, Bool.or_eq_true]
    exact Or.inl ((pyIn_iff_occurs _ _).mpr h)
  · intro msg h
    rw [isMarker, Bool.or_eq_true]
    exact Or.inr ((pyIn_iff_occurs _ _).mpr h)
  · intro msg h
    rw [isMarker, Bool.or_eq_true] at h
    rcases h with h | h
    · exact Or.inl ((pyIn_iff_occurs _ _).mp h)
    · exact Or.inr ((pyIn_iff_occurs _ _).mp h)
  · intro m rest h
    simp [subprocess_run, h]

/-- Witness for C8 at concrete lines. -/
theorem subprocess_run_case_sensitive_markers_witness :
    isMarker "chunk Failed now".data = true ∧
    isMarker "JOB_STATE_CANCELLING seen".data = true ∧
    ("Failed".data <:+: "Failed".data ∨ "JOB_STATE_CANCELLING".data <:+: "Failed".data) ∧
    (subprocess_run (.line " Failed ".data :: [])).outcome
      = .aborted (stopMessage (pyStrip " Failed ".data)) :=
  ⟨subprocess_run_case_sensitive_markers.1 "chunk Failed now".data (by decide),
   subprocess_run_case_sensitive_markers.2.1 "JOB_STATE_CANCELLING seen".data (by decide),
   subprocess_run_case_sensitive_markers.2.2.1 "Failed".data (by decide),
   subprocess_run_case_sensitive_markers.2.2.2.1 " Failed ".data [] (by decide)⟩

/-- C9 counterexample: a failed read (an exception that is not a
CalledProcessError, here the uncaught alternative) is not logged at
error level and terminates the run, leaving the rest of the stream
unread - the except clause of the source only catches
subprocess.CalledProcessError. -/
theorem subprocess_run_read_error_cex :
    subprocess_run [.line "ok".data, .exn .otherError, .line "later".data]
      = ⟨["ok".data], [], .crashed⟩ := by
  decide

/-- C9 (amended): only a CalledProcessError raised while reading is
caught: it is logged at error level and the supervisor returns normally
with the lines accumulated so far; any other stream-read error
propagates uncaught and terminates the run unlogged; and a sys.exit
abort only ever arises from a marker line. -/
theorem subprocess_run_exception_handling :
    (∀ pre : List (List Char), ∀ stderr : List Char, ∀ rest : List StreamItem,
      (∀ l ∈ pre, isMarker (pyStrip l) = false) →
      subprocess_run (pre.map .line ++ .exn (.calledProcessError stderr) :: rest)
        = ⟨pre.map pyStrip, [execFailMessage stderr], .exited⟩) ∧
    (∀ pre : List (List Char), ∀ rest : List StreamItem,
      (∀ l ∈ pre, isMarker (pyStrip l) = false) →
      subprocess_run (pre.map .line ++ .exn .otherError :: rest)
        = ⟨pre.map pyStrip, [], .crashed⟩) ∧
    (∀ items : List StreamItem, ∀ msg : List Char,
      (subprocess_run items).outcome = .aborted msg →
      ∃ pre post, ∃ m : List Char, items = pre ++ .line m :: post ∧
        isMarker (pyStrip m) = true ∧ msg = stopMessage (pyStrip m)) := by
  refine ⟨?_, ?_, ?_⟩
  · intro pre stderr rest h
    rw [subprocess_run_prefix_lines pre _ h]
    simp [subprocess_run]
  · intro pre rest h
    rw [subprocess_run_prefix_lines pre _ h]
    simp [subprocess_run]
  · intro items
    induction items with
    | nil => intro msg h; simp [subprocess_run] at h
    | cons item rest ih =>
      intro msg h
      match item with
      | .line l =>
        by_cases hl : isMarker (pyStrip l) = true
        · refine ⟨[], rest, l, by simp, hl, ?_⟩
          simp only [subprocess_run, hl, if_pos rfl] at h
          injection h with h
          exact h.symm
        · rw [Bool.not_eq_true] at hl
          simp only [subprocess_run, hl, Bool.false_eq_true, if_false] at h
          obtain ⟨pre, post, m, heq, hmark, hmsg⟩ := ih msg h
          exact ⟨.line l :: pre, post, m, by rw [heq]; rfl, hmark, hmsg⟩
      | .exn (.calledProcessError stderr) => simp [subprocess_run] at h
      | .exn .otherError => simp [subprocess_run] at h

/-- Witness for C9 (amended) at concrete streams. -/
theorem subprocess_run_exception_handling_witness :
    subprocess_run (["a".data].map .line ++ .exn (.calledProcessError "boom".data) :: [])
      = ⟨["a".data].map pyStrip, [execFailMessage "boom".data], .exited⟩ ∧
    subprocess_run (["a".data].map .line ++ .exn .otherError :: [])
      = ⟨["a".data].map pyStrip, [], .crashed⟩ ∧
    (∃ pre post, ∃ m : List Char,
      ([.line "see Failed state".data] : List StreamItem) = pre ++ .line m :: post ∧
      isMarker (pyStrip m) = true ∧
      "Stopping subprocess as see Failed state".data = stopMessage (pyStrip m)) :=
  ⟨subprocess_run_exception_handling.1 ["a".data] "boom".data [] (by decide),
   subprocess_run_exception_handling.2.1 ["a".data] [] (by decide),
   subprocess_run_exception_handling.2.2 [.line "see Failed state".data]
     "Stopping subprocess as see Failed state".data (by decide)⟩

/-- C5: a token containing the internal separator whose separator count
is not exactly two (so the split is not exactly three parts) makes
make_path fail with the malformed-token error, for every timestamp. -/
theorem make_path_malformed_token (t : Timestamp) (chunk : List Char)
    (hmem : '_' ∈ chunk) (hcnt : chunk.count '_' ≠ 2) :
    make_path t chunk = .error .malformedToken := by
  have hlen : (pySplit '_' chunk).length ≠ 3 := by
    rw [pySplit_length]
    omega
  rw [make_path, if_pos hmem]
  rcases hs : pySplit '_' chunk with _ | ⟨a, _ | ⟨b, _ | ⟨c, _ | ⟨d, tl⟩⟩⟩⟩
  · rfl
  · rfl
  · rfl
  · rw [hs] at hlen
    simp at hlen
  · rfl

/-- Witness for C5 at concrete malformed tokens. -/
theorem make_path_malformed_token_witness :
    make_path ⟨2021, 5, 6, 0, 0, 0⟩ "o3q_137".data = .error .malformedToken ∧
    make_path ⟨2021, 5, 6, 0, 0, 0⟩ "a_b_c_d".data = .error .malformedToken :=
  ⟨make_path_malformed_token ⟨2021, 5, 6, 0, 0, 0⟩ "o3q_137".data (by decide) (by decide),
   make_path_malformed_token ⟨2021, 5, 6, 0, 0, 0⟩ "a_b_c_d".data (by decide) (by decide)⟩

/-- C4: a token with the separator that splits into exactly three parts
produces the split path (bundle as grib-bundle qualifier, level and
variable as suffix segments); a separator-free token produces the
bundle-only path; every produced path embeds the zero-padded
year/yearmonthday segments with the year as a directory prefix; and the
example token o3q_137_t yields a path carrying .grb2_137_t.grib as its
suffix segments. -/
theorem make_path_branch_layout (t : Timestamp) (chunk : List Char) :
    ('_' ∈ chunk → ∀ chunk_ level var : List Char,
      pySplit '_' chunk = [chunk_, level, var] →
      make_path t chunk = .ok (gsDailyPrefix ++ pad 4 t.year ++ '/' ::
        (pad 4 t.year ++ pad 2 t.month ++ pad 2 t.day ++ "_hres_".data ++
          chunk_ ++ ".grb2_".data ++ level ++ '_' :: (var ++ ".grib".data)))) ∧
    ('_' ∉ chunk →
      make_path t chunk = .ok (gsDailyPrefix ++ pad 4 t.year ++ '/' ::
        (pad 4 t.year ++ pad 2 t.month ++ pad 2 t.day ++ "_hres_".data ++
          chunk ++ ".grb2".data))) ∧
    (∀ p, make_path t chunk = .ok p →
      (pad 4 t.year ++ '/' :: (pad 4 t.year ++ pad 2 t.month ++ pad 2 t.day)) <:+: p) ∧
    (∀ p, make_path t "o3q_137_t".data = .ok p →
      ".grb2_137_t.grib".data <:+: p ∧ "137".data <:+: p ∧ "t".data <:+: p) := by
  have hbranch3 : ∀ ch chunk_ level var : List Char, '_' ∈ ch →
      pySplit '_' ch = [chunk_, level, var] →
      make_path t ch = .ok (gsDailyPrefix ++ pad 4 t.year ++ '/' ::
        (pad 4 t.year ++ pad 2 t.month ++ pad 2 t.day ++ "_hres_".data ++
          chunk_ ++ ".grb2_".data ++ level ++ '_' :: (var ++ ".grib".data))) := by
    intro ch chunk_ level var hmem hs
    rw [make_path, if_pos hmem, hs]
  refine ⟨fun hmem chunk_ level var hs => hbranch3 chunk chunk_ level var hmem hs, ?_, ?_, ?_⟩
  · intro hmem
    rw [make_path, if_neg hmem]
  · intro p hp
    by_cases hmem : '_' ∈ chunk
    · rcases hs : pySplit '_' chunk with _ | ⟨a, _ | ⟨b, _ | ⟨c, _ | ⟨d, tl⟩⟩⟩⟩ <;>
        rw [make_path, if_pos hmem, hs] at hp
      · cases hp
      · cases hp
      · cases hp
      · injection hp with hp
        refine ⟨gsDailyPrefix, "_hres_".data ++ a ++ ".grb2_".data ++ b ++ '_' ::
          (c ++ ".grib".data), ?_⟩
        rw [← hp]
        simp [List.append_assoc]
      · cases hp
    · rw [make_path, if_neg hmem] at hp
      injection hp with hp
      refine ⟨gsDailyPrefix, "_hres_".data ++ chunk ++ ".grb2".data, ?_⟩
      rw [← hp]
      simp [List.append_assoc]
  · intro p hp
    have hs : pySplit '_' "o3q_137_t".data = ["o3q".data, "137".data, "t".data] := by decide
    rw [hbranch3 "o3q_137_t".data "o3q".data "137".data "t".data (by decide) hs] at hp
    injection hp with hp
    subst hp
    refine ⟨?_, ?_, ?_⟩
    · refine ⟨gsDailyPrefix ++ pad 4 t.year ++ '/' ::
        (pad 4 t.year ++ pad 2 t.month ++ pad 2 t.day ++ "_hres_".data ++ "o3q".data),
        [], ?_⟩
      simp [List.append_assoc]
    · refine ⟨gsDailyPrefix ++ pad 4 t.year ++ '/' ::
        (pad 4 t.year ++ pad 2 t.month ++ pad 2 t.day ++ "_hres_".data ++ "o3q".data ++
          ".grb2_".data), "_t.grib".data, ?_⟩
      simp [List.append_assoc]
    · refine ⟨gsDailyPrefix ++ pad 4 t.year ++ '/' ::
        (pad 4 t.year ++ pad 2 t.month ++ pad 2 t.day ++ "_hres_".data ++ "o3q".data ++
          ".grb2_".data ++ "137".data ++ ['_']), ".grib".data, ?_⟩
      simp [List.append_assoc]

/-- Witness for C4 at a concrete timestamp and both token shapes. -/
theorem make_path_branch_layout_witness :
    make_path ⟨2022, 3, 7, 0, 0, 0⟩ "o3q_137_t".data
      = .ok (gsDailyPrefix ++ pad 4 2022 ++ '/' ::
        (pad 4 2022 ++ pad 2 3 ++ pad 2 7 ++ "_hres_".data ++
          "o3q".data ++ ".grb2_".data ++ "137".data ++ '_' :: ("t".data ++ ".grib".data))) ∧
    make_path ⟨2022, 3, 7, 0, 0, 0⟩ "dve".data
      = .ok (gsDailyPrefix ++ pad 4 2022 ++ '/' ::
        (pad 4 2022 ++ pad 2 3 ++ pad 2 7 ++ "_hres_".data ++ "dve".data ++ ".grb2".data)) :=
  ⟨(make_path_branch_layout ⟨2022, 3, 7, 0, 0, 0⟩ "o3q_137_t".data).1 (by decide)
      "o3q".data "137".data "t".data (by decide),
   (make_path_branch_layout ⟨2022, 3, 7, 0, 0, 0⟩ "dve".data).2.1 (by decide)⟩

/-- C10: make_path reads only the calendar date fields of the timestamp,
so two timestamps sharing year, month and day yield identical paths for
every token. -/
theorem make_path_date_only (t1 t2 : Timestamp) (chunk : List Char)
    (hy : t1.year = t2.year) (hm : t1.month = t2.month) (hd : t1.day = t2.day) :
    make_path t1 chunk = make_path t2 chunk := by
  cases t1
  cases t2
  dsimp only at hy hm hd
  subst hy
  subst hm
  subst hd
  rfl

/-- Witness for C10 at two timestamps differing only in clock fields. -/
theorem make_path_date_only_witness :
    make_path ⟨2021, 5, 6, 0, 0, 0⟩ "dve".data
      = make_path ⟨2021, 5, 6, 23, 59, 58⟩ "dve".data :=
  make_path_date_only ⟨2021, 5, 6, 0, 0, 0⟩ ⟨2021, 5, 6, 23, 59, 58⟩ "dve".data rfl rfl rfl

/-- C6 counterexample: two distinct valid timestamps (same calendar day,
different hour) with the same token produce the same path, so make_path
is not injective on (timestamp, token) pairs. -/
theorem make_path_injectivity_cex :
    (⟨2020, 1, 1, 0, 0, 0⟩ : Timestamp) ≠ ⟨2020, 1, 1, 1, 0, 0⟩ ∧
    ValidTime ⟨2020, 1, 1, 0, 0, 0⟩ ∧ ValidTime ⟨2020, 1, 1, 1, 0, 0⟩ ∧
    make_path ⟨2020, 1, 1, 0, 0, 0⟩ "dve".data
      = make_path ⟨2020, 1, 1, 1, 0, 0⟩ "dve".data := by
  decide

/-- The decomposition around the first occurrence of a separator is
unique: equal lists split at a separator preceded by separator-free
prefixes have equal prefixes and equal tails. -/
theorem first_sep_unique (sep : Char) :
    ∀ a1 a2 t1 t2 : List Char, sep ∉ a1 → sep ∉ a2 →
      a1 ++ sep :: t1 = a2 ++ sep :: t2 → a1 = a2 ∧ t1 = t2 := by
  intro a1
  induction a1 with
  | nil =>
    intro a2 t1 t2 h1 h2 heq
    cases a2 with
    | nil =>
      simp only [List.nil_append] at heq
      injection heq with _ ht
      exact ⟨rfl, ht⟩
    | cons x a2' =>
      simp only [List.nil_append, List.cons_append] at heq
      injection heq with hx _
      exact absurd (hx ▸ List.mem_cons_self x a2') h2
  | cons x a1' ih =>
    intro a2 t1 t2 h1 h2 heq
    cases a2 with
    | nil =>
      simp only [List.cons_append, List.nil_append] at heq
      injection heq with hx _
      exact absurd (hx ▸ List.mem_cons_self x a1') h1
    | cons y a2' =>
      simp only [List.cons_append] at heq
      injection heq with hxy htl
      subst hxy
      obtain ⟨hpre, hts⟩ := ih a2' t1 t2
        (fun hmem => h1 (List.mem_cons_of_mem x hmem))
        (fun hmem => h2 (List.mem_cons_of_mem x hmem)) htl
      exact ⟨by rw [hpre], hts⟩

/-- Date-dependent header shared by both branches of make_path, up to
reassociation of the appends. -/
def dateHeader (y m d : ℕ) : List Char :=
  gsDailyPrefix ++ pad 4 y ++ '/' :: (pad 4 y ++ pad 2 m ++ pad 2 d ++ "_hres_".data)

theorem pathA_norm (t : Timestamp) (chunk : List Char) :
    gsDailyPrefix ++ pad 4 t.year ++ '/' ::
      (pad 4 t.year ++ pad 2 t.month ++ pad 2 t.day ++ "_hres_".data ++
        chunk ++ ".grb2".data)
    = dateHeader t.year t.month t.day ++ (chunk ++ ".grb2".data) := by
  simp only [dateHeader, List.append_assoc, List.cons_append, List.nil_append]

theorem pathB_norm (t : Timestamp) (a b v : List Char) :
    gsDailyPrefix ++ pad 4 t.year ++ '/' ::
      (pad 4 t.year ++ pad 2 t.month ++ pad 2 t.day ++ "_hres_".data ++
        a ++ ".grb2_".data ++ b ++ '_' :: (v ++ ".grib".data))
    = dateHeader t.year t.month t.day ++
        ((a ++ ".grb2".data) ++ '_' :: (b ++ '_' :: (v ++ ".grib".data))) := by
  have h : (".grb2_".data : List Char) = ".grb2".data ++ ['_'] := by decide
  rw [h]
  simp only [dateHeader, List.append_assoc, List.cons_append, List.nil_append]

/-- A produced path determines the (bounded) date fields and the
branch-specific remainder: the fixed-width date header is injective. -/
theorem path_decompose (y1 m1 d1 y2 m2 d2 : ℕ) (r1 r2 : List Char)
    (hy1 : y1 < 10000) (hy2 : y2 < 10000) (hm1 : m1 < 100) (hm2 : m2 < 100)
    (hd1 : d1 < 100) (hd2 : d2 < 100)
    (heq : dateHeader y1 m1 d1 ++ r1 = dateHeader y2 m2 d2 ++ r2) :
    y1 = y2 ∧ m1 = m2 ∧ d1 = d2 ∧ r1 = r2 := by
  have hp4 : (10 : ℕ) ^ 4 = 10000 := by norm_num
  have hp2 : (10 : ℕ) ^ 2 = 100 := by norm_num
  have hlen4 : ∀ y : ℕ, y < 10000 → (pad 4 y).length = 4 := by
    intro y hy
    exact pad_length 4 y (by omega) (by omega)
  have hlen2 : ∀ m : ℕ, m < 100 → (pad 2 m).length = 2 := by
    intro m hm
    exact pad_length 2 m (by omega) (by omega)
  simp only [dateHeader, List.append_assoc, List.cons_append, List.nil_append] at heq
  have h0 := List.append_cancel_left heq
  obtain ⟨hyeq, h1⟩ := List.append_inj h0 (by rw [hlen4 y1 hy1, hlen4 y2 hy2])
  have hy : y1 = y2 := pad_inj 4 hyeq
  injection h1 with _ h2
  obtain ⟨_, h3⟩ := List.append_inj h2 (by rw [hlen4 y1 hy1, hlen4 y2 hy2])
  obtain ⟨hmeq, h4⟩ := List.append_inj h3 (by rw [hlen2 m1 hm1, hlen2 m2 hm2])
  have hm : m1 = m2 := pad_inj 2 hmeq
  obtain ⟨hdeq, h5⟩ := List.append_inj h4 (by rw [hlen2 d1 hd1, hlen2 d2 hd2])
  have hd : d1 = d2 := pad_inj 2 hdeq
  exact ⟨hy, hm, hd, by simpa using h5⟩

/-- Every successful make_path result has one of the two branch shapes
of the source, with the preconditions the taken branch requires. -/
theorem make_path_ok_shape (t : Timestamp) (chunk p : List Char)
    (hp : make_path t chunk = .ok p) :
    ('_' ∉ chunk ∧ p = gsDailyPrefix ++ pad 4 t.year ++ '/' ::
        (pad 4 t.year ++ pad 2 t.month ++ pad 2 t.day ++ "_hres_".data ++
          chunk ++ ".grb2".data)) ∨
    (∃ a b v : List Char, pySplit '_' chunk = [a, b, v] ∧ '_' ∈ chunk ∧
      p = gsDailyPrefix ++ pad 4 t.year ++ '/' ::
        (pad 4 t.year ++ pad 2 t.month ++ pad 2 t.day ++ "_hres_".data ++
          a ++ ".grb2_".data ++ b ++ '_' :: (v ++ ".grib".data))) := by
  by_cases hmem : '_' ∈ chunk
  · rcases hs : pySplit '_' chunk with _ | ⟨a, _ | ⟨b, _ | ⟨v, _ | ⟨d4, tl⟩⟩⟩⟩ <;>
      rw [make_path, if_pos hmem, hs] at hp
    · cases hp
    · cases hp
    · cases hp
    · injection hp with hp
      exact Or.inr ⟨a, b, v, rfl, hmem, hp.symm⟩
    · cases hp
  · rw [make_path, if_neg hmem] at hp
    injection hp with hp
    exact Or.inl ⟨hmem, hp.symm⟩

/-- C6 (amended): make_path is a pure function, so identical inputs give
identical outputs by construction; and it is injective up to the
calendar date: for valid timestamps, two inputs can only produce the
same path string when they agree on year, month, day and token (the
clock fields are the only information the path drops, as the
counterexample shows). -/
theorem make_path_injective_on_date_token (t1 t2 : Timestamp) (c1 c2 : List Char)
    (hv1 : ValidTime t1) (hv2 : ValidTime t2) (p : List Char)
    (hp1 : make_path t1 c1 = .ok p) (hp2 : make_path t2 c2 = .ok p) :
    t1.year = t2.year ∧ t1.month = t2.month ∧ t1.day = t2.day ∧ c1 = c2 := by
  unfold ValidTime at hv1 hv2
  obtain ⟨ha1, hb1, hc1, hd1, he1, hf1, -, -, -⟩ := hv1
  obtain ⟨ha2, hb2, hc2, hd2, he2, hf2, -, -, -⟩ := hv2
  have hgrb : ('_' : Char) ∉ ".grb2".data := by decide
  rcases make_path_ok_shape t1 c1 p hp1 with ⟨hn1, hpe1⟩ | ⟨a1, b1, v1, hs1, hmem1, hpe1⟩ <;>
    rcases make_path_ok_shape t2 c2 p hp2 with ⟨hn2, hpe2⟩ | ⟨a2, b2, v2, hs2, hmem2, hpe2⟩
  · have heq : dateHeader t1.year t1.month t1.day ++ (c1 ++ ".grb2".data)
        = dateHeader t2.year t2.month t2.day ++ (c2 ++ ".grb2".data) := by
      rw [← pathA_norm t1 c1, ← pathA_norm t2 c2, ← hpe1, ← hpe2]
    obtain ⟨hy, hm, hd, hr⟩ := path_decompose _ _ _ _ _ _ _ _
      (by omega) (by omega) (by omega) (by omega) (by omega) (by omega) heq
    exact ⟨hy, hm, hd, (List.append_inj' hr rfl).1⟩
  · have heq : dateHeader t1.year t1.month t1.day ++ (c1 ++ ".grb2".data)
        = dateHeader t2.year t2.month t2.day ++
            ((a2 ++ ".grb2".data) ++ '_' :: (b2 ++ '_' :: (v2 ++ ".grib".data))) := by
      rw [← pathA_norm t1 c1, ← pathB_norm t2 a2 b2 v2, ← hpe1, ← hpe2]
    obtain ⟨-, -, -, hr⟩ := path_decompose _ _ _ _ _ _ _ _
      (by omega) (by omega) (by omega) (by omega) (by omega) (by omega) heq
    have hyes : ('_' : Char) ∈ (a2 ++ ".grb2".data) ++ '_' :: (b2 ++ '_' :: (v2 ++ ".grib".data)) :=
      List.mem_append.mpr (Or.inr (List.mem_cons_self _ _))
    rw [← hr] at hyes
    rcases List.mem_append.mp hyes with hmem | hmem
    · exact absurd hmem hn1
    · exact absurd hmem hgrb
  · have heq : dateHeader t1.year t1.month t1.day ++
          ((a1 ++ ".grb2".data) ++ '_' :: (b1 ++ '_' :: (v1 ++ ".grib".data)))
        = dateHeader t2.year t2.month t2.day ++ (c2 ++ ".grb2".data) := by
      rw [← pathB_norm t1 a1 b1 v1, ← pathA_norm t2 c2, ← hpe1, ← hpe2]
    obtain ⟨-, -, -, hr⟩ := path_decompose _ _ _ _ _ _ _ _
      (by omega) (by omega) (by omega) (by omega) (by omega) (by omega) heq
    have hyes : ('_' : Char) ∈ (a1 ++ ".grb2".data) ++ '_' :: (b1 ++ '_' :: (v1 ++ ".grib".data)) :=
      List.mem_append.mpr (Or.inr (List.mem_cons_self _ _))
    rw [hr] at hyes
    rcases List.mem_append.mp hyes with hmem | hmem
    · exact absurd hmem hn2
    · exact absurd hmem hgrb
  · have heq : dateHeader t1.year t1.month t1.day ++
          ((a1 ++ ".grb2".data) ++ '_' :: (b1 ++ '_' :: (v1 ++ ".grib".data)))
        = dateHeader t2.year t2.month t2.day ++
          ((a2 ++ ".grb2".data) ++ '_' :: (b2 ++ '_' :: (v2 ++ ".grib".data))) := by
      rw [← pathB_norm t1 a1 b1 v1, ← pathB_norm t2 a2 b2 v2, ← hpe1, ← hpe2]
    obtain ⟨hy, hm, hd, hr⟩ := path_decompose _ _ _ _ _ _ _ _
      (by omega) (by omega) (by omega) (by omega) (by omega) (by omega) heq
    have hna1 : ('_' : Char) ∉ a1 ++ ".grb2".data := by
      intro hmem
      rcases List.mem_append.mp hmem with hx | hx
      · exact pySplit_no_sep '_' c1 a1 (by rw [hs1]; simp) hx
      · exact hgrb hx
    have hna2 : ('_' : Char) ∉ a2 ++ ".grb2".data := by
      intro hmem
      rcases List.mem_append.mp hmem with hx | hx
      · exact pySplit_no_sep '_' c2 a2 (by rw [hs2]; simp) hx
      · exact hgrb hx
    obtain ⟨hpre, htail⟩ := first_sep_unique '_' _ _ _ _ hna1 hna2 hr
    have ha : a1 = a2 := (List.append_inj' hpre rfl).1
    have hnb1 : ('_' : Char) ∉ b1 := pySplit_no_sep '_' c1 b1 (by rw [hs1]; simp)
    have hnb2 : ('_' : Char) ∉ b2 := pySplit_no_sep '_' c2 b2 (by rw [hs2]; simp)
    obtain ⟨hb, htail2⟩ := first_sep_unique '_' _ _ _ _ hnb1 hnb2 htail
    have hv : v1 = v2 := (List.append_inj' htail2 rfl).1
    have hj1 : c1 = a1 ++ '_' :: (b1 ++ '_' :: v1) := by
      have hjoin := pySplit_join '_' c1
      rw [hs1] at hjoin
      exact hjoin.symm
    have hj2 : c2 = a2 ++ '_' :: (b2 ++ '_' :: v2) := by
      have hjoin := pySplit_join '_' c2
      rw [hs2] at hjoin
      exact hjoin.symm
    refine ⟨hy, hm, hd, ?_⟩
    rw [hj1, hj2, ha, hb, hv]

/-- Witness for C6 (amended) at a concrete pair of equal outputs. -/
theorem make_path_injective_on_date_token_witness :
    (⟨2022, 3, 7, 1, 2, 3⟩ : Timestamp).year = (⟨2022, 3, 7, 4, 5, 6⟩ : Timestamp).year ∧
    (⟨2022, 3, 7, 1, 2, 3⟩ : Timestamp).month = (⟨2022, 3, 7, 4, 5, 6⟩ : Timestamp).month ∧
    (⟨2022, 3, 7, 1, 2, 3⟩ : Timestamp).day = (⟨2022, 3, 7, 4, 5, 6⟩ : Timestamp).day ∧
    "o3q_137_t".data = "o3q_137_t".data :=
  make_path_injective_on_date_token ⟨2022, 3, 7, 1, 2, 3⟩ ⟨2022, 3, 7, 4, 5, 6⟩
    "o3q_137_t".data "o3q_137_t".data (by decide) (by decide)
    "gs://external-data-ai-for-weather/ERA5GRIB/HRES/Daily/2022/20220307_hres_o3q.grb2_137_t.grib".data
    (by decide) (by decide)

end ArcoEra5
